import Mathlib

/-!
Verification development for the `ajour` configuration module
(`crates/core/src/config/mod.rs`): the flavor-aware directory resolvers
(`get_root_directory_for_flavor`, `get_addon_directory_for_flavor`,
`get_download_directory_for_flavor`, `get_wtf_directory_for_flavor`) and the
versioned `ColumnConfig` schema with its serde (de)serialization behaviour.

Modelling conventions:
* A filesystem path is its list of components below the root (`/a/b` is
  `["a", "b"]`).
* The filesystem is the list of directories that currently exist.
* The case-insensitive fallback search performed with `glob::glob_with` is
  modelled by `globMatches`; the pattern compilation that `glob_with`
  performs up front (whose failure the source unwraps, i.e. panics on) is
  modelled by `globAccepts`, following the `glob 0.3` crate:
  `Pattern::new` on the whole pattern (`globPatternValid`) and then
  `Pattern::new(component)?` on every path component of the pattern.
* Panics (`.unwrap()` in the source) are modelled as `Except.error .panic`.
* serde_yaml documents are modelled by the `Value` tree; externally tagged
  enums are single-entry mappings, `u16` fields reject values `≥ 2^16`,
  missing `Option` fields deserialize to `none`, and `#[serde(default)]`
  on `aura_columns` makes a missing field the empty list.
-/

namespace Ajour

/-- A filesystem path, as the list of its components below the root. -/
abbrev FsPath := List String

/-- `PathBuf::parent`: drop the last component; `None` at the root. -/
def FsPath.parentDir : FsPath → Option FsPath
  | [] => none
  | p => some p.dropLast

/-- `dir.display()` as a character list: each component preceded by `/`. -/
def pathDisplayChars : FsPath → List Char
  | [] => []
  | c :: rest => '/' :: (c.data ++ pathDisplayChars rest)

/-- The filesystem state: the set (as a list) of directories that exist. -/
structure FileSystem where
  dirs : List FsPath
deriving DecidableEq

/-- `Path::exists`. -/
def pathExists (fs : FileSystem) (p : FsPath) : Bool :=
  fs.dirs.contains p

/-- `std::fs::create_dir_all`: the directory and all its missing ancestors
come into existence (the modelled creation always succeeds; the source
discards the `Result` with `let _ = ...`). -/
def createDirAll (fs : FileSystem) (p : FsPath) : FileSystem :=
  ⟨(p.inits.filter (fun q => !q.isEmpty)) ++ fs.dirs⟩

/-- ASCII lower-casing, as used by the glob crate's case-insensitive
comparison (`to_ascii_lowercase`). -/
def asciiLower (c : Char) : Char :=
  if 'A' ≤ c && c ≤ 'Z' then Char.ofNat (c.toNat + 32) else c

/-- `glob`'s `chars_eq` with `case_sensitive: false` on unix: ASCII
characters compare case-insensitively, all others literally. -/
def charsEq (a b : Char) : Bool :=
  if a.toNat ≤ 127 && b.toNat ≤ 127 then asciiLower a == asciiLower b else a == b

/-- Case-insensitive equality of character lists (pointwise `charsEq`). -/
def listEqCI : List Char → List Char → Bool
  | [], [] => true
  | a :: xs, b :: ys => charsEq a b && listEqCI xs ys
  | _, _ => false

/-- Matching of one glob pattern component against one directory name under
`MatchOptions { case_sensitive: false, .. }`.  The module only ever builds
component patterns of the shape `?` followed by literal characters
(`?nterface`, `?ddons`, `?tf`): `?` consumes exactly one arbitrary character
and the remaining literals compare case-insensitively.  (A pattern without
a leading `?` would be matched literally-case-insensitively; no such
component pattern occurs in the source.) -/
def globCompMatch (pat name : String) : Bool :=
  match pat.data, name.data with
  | '?' :: lit, _ :: rest => listEqCI rest lit
  | ps, ns => listEqCI ns ps

/-- Componentwise matching of a list of pattern components. -/
def compsMatch : List String → List String → Bool
  | [], [] => true
  | pc :: pcs, x :: xs => globCompMatch pc x && compsMatch pcs xs
  | _, _ => false

/-- The paths produced by `glob::glob_with` for the pattern
`dir/<patComps>`: the walk starts at the literal directory `dir` and at
every level matches entries case-insensitively against the next pattern
component, so a path is yielded iff it is `dir ++ xs` with `xs` matching
`patComps` componentwise and every intermediate directory (including `dir`
itself) existing. -/
def globMatches (fs : FileSystem) (dir : FsPath) (patComps : List String) : List FsPath :=
  fs.dirs.filter (fun p =>
    (p.take dir.length == dir) &&
    compsMatch patComps (p.drop dir.length) &&
    (List.range patComps.length).all (fun k => pathExists fs (p.take (dir.length + k))))

/-- Validity scan of a glob pattern string, following `glob::Pattern::new`
(glob 0.3): `?` is a wildcard; a run of more than two `*` is an error; `**`
must form a whole path component (preceded by nothing or `/`, followed by
`/` or the end); `[` must open a well-formed character set closed by `]`,
else the "invalid range pattern" error.  `prev` is the character before the
current position (`none` at the start); the fuel argument only bounds the
recursion and is instantiated with the length of the list. -/
def globPatternValidAux : Nat → Option Char → List Char → Bool
  | _, _, [] => true
  | 0, _, _ :: _ => false
  | fuel + 1, prev, c :: r =>
    if c == '?' then globPatternValidAux fuel (some '?') r
    else if c == '*' then
      let stars := r.takeWhile (fun d => d == '*')
      let rest := r.drop stars.length
      if stars.length + 1 > 2 then false
      else if stars.length + 1 == 2 then
        if prev == none || prev == some '/' then
          match rest with
          | [] => true
          | d :: r2 => if d == '/' then globPatternValidAux fuel (some '/') r2 else false
        else false
      else globPatternValidAux fuel (some '*') rest
    else if c == '[' then
      if decide (3 ≤ r.length) && (r.head? == some '!') then
        match (r.drop 2).findIdx? (fun d => d == ']') with
        | some j => globPatternValidAux fuel (some ']') (r.drop (j + 3))
        | none => false
      else if decide (2 ≤ r.length) && !(r.head? == some '!') then
        match (r.drop 1).findIdx? (fun d => d == ']') with
        | some j => globPatternValidAux fuel (some ']') (r.drop (j + 2))
        | none => false
      else false
    else globPatternValidAux fuel (some c) r

/-- Whether `glob::Pattern::new` accepts the pattern. -/
def globPatternValid (l : List Char) : Bool :=
  globPatternValidAux l.length none l

/-- Splitting a pattern string on the path separator, as
`split_terminator(path::is_separator)` does on unix after the root has
been stripped (the leading `/` only contributes an empty chunk). -/
def splitSep : List Char → List (List Char)
  | [] => [[]]
  | c :: r =>
    if c == '/' then [] :: splitSep r
    else
      match splitSep r with
      | [] => [[c]]
      | chunk :: rest => (c :: chunk) :: rest

/-- The path components of a pattern that `glob_with` compiles
individually.  Empty chunks (from the leading root separator or repeated
separators) are dropped: `Pattern::new("")` always succeeds, so they never
affect acceptance. -/
def patternComponents (l : List Char) : List (List Char) :=
  (splitSep l).filter (fun c => !c.isEmpty)

/-- Whether `glob::glob_with` accepts the pattern: it first validates the
whole pattern with `Pattern::new` and then also compiles every path
component with `Pattern::new(component)?`, so a `[...]` class spanning a
separator (valid as a whole pattern) still fails componentwise.  When
either check fails, the source's `glob_with(...).unwrap()` panics. -/
def globAccepts (l : List Char) : Bool :=
  globPatternValid l && (patternComponents l).all (fun c => globPatternValid c)

/-- A recorded installation root none of whose components contains a glob
metacharacter (`?`, `*`, `[`): for such roots the directory part of the
built pattern is treated literally by the glob walk and the pattern is
always accepted by `Pattern::new`. -/
def dirGlobLiteral (dir : FsPath) : Bool :=
  dir.all (fun s => s.data.all (fun c => !(c == '?' || c == '*' || c == '[')))

/-- A panic (`.unwrap()` on an error) in the source. -/
inductive ResolveError where
  | panic
deriving DecidableEq

/-- Outcome of a resolver call: the returned `Option<PathBuf>`, the
filesystem after the call, and whether `create_dir_all` was invoked. -/
structure ResolveOutcome where
  result : Option FsPath
  fs : FileSystem
  created : Bool
deriving DecidableEq

/-- Modelled from the spec: the closed enumeration of target-application
variants (`Flavor` in `config/wow.rs`, which is not part of the provided
sources); the spec names Retail / Classic / Classic-era analogues, each with
a fixed folder-name token. -/
inductive Flavor where
  | retail
  | classic
  | classicEra
deriving DecidableEq

/-- Modelled from the spec: each variant's fixed, immutable folder-name
token used to build its on-disk path. -/
def Flavor.folderName : Flavor → String
  | .retail => "_retail_"
  | .classic => "_classic_"
  | .classicEra => "_classic_era_"

/-- Modelled from the spec: the `Wow` record of `config/wow.rs`, carrying
the `HashMap<Flavor, PathBuf>` of recorded installation roots (modelled as
a function to `Option`). -/
structure Wow where
  directories : Flavor → Option FsPath

/-- A serde_yaml document tree, as far as `ColumnConfig` needs it. -/
inductive Value where
  | null
  | bool (b : Bool)
  | nat (n : Nat)
  | str (s : String)
  | seq (xs : List Value)
  | map (fields : List (String × Value))

/-- One column record of the V2/V3 schema (`ColumnConfigV2`): a key, an
optional `u16` width (modelled as `Nat`, bounded at deserialization) and a
hidden flag. -/
structure ColumnConfigV2 where
  key : String
  width : Option Nat
  hidden : Bool
deriving DecidableEq

/-- The versioned column-layout schema (`ColumnConfig`): V1 holds three
named `u16` widths, V2 one column list, V3 three column lists with
`aura_columns` carrying `#[serde(default)]`. -/
inductive ColumnConfig where
  | V1 (local_version_width remote_version_width status_width : Nat)
  | V2 (columns : List ColumnConfigV2)
  | V3 (my_addons_columns catalog_columns aura_columns : List ColumnConfigV2)
deriving DecidableEq

/-- `ColumnConfig::default()`: the fixed V1 shape `150 / 150 / 85`. -/
def ColumnConfig.default : ColumnConfig :=
  .V1 150 150 85

/-- The schema error raised by deserialization (unrecognized tag, missing
required field, ill-typed field). -/
inductive SchemaError where
  | invalid
deriving DecidableEq

/-- First-match field lookup in a mapping (unknown extra fields are thereby
ignored, as serde does without `deny_unknown_fields`). -/
def lookupField : List (String × Value) → String → Option Value
  | [], _ => none
  | (k, v) :: rest, key => if k == key then some v else lookupField rest key

/-- Deserializing a required `u16` field. -/
def deU16 : Option Value → Except SchemaError Nat
  | some (.nat n) => if n < 65536 then .ok n else .error .invalid
  | _ => .error .invalid

/-- Deserializing an `Option<u16>` field: a missing field and an explicit
null both give `none` (serde's `missing_field` deserializes `Option` fields
to `None`). -/
def deWidth : Option Value → Except SchemaError (Option Nat)
  | none => .ok none
  | some .null => .ok none
  | some (.nat n) => if n < 65536 then .ok (some n) else .error .invalid
  | some _ => .error .invalid

/-- Deserializing a required `bool` field. -/
def deBool : Option Value → Except SchemaError Bool
  | some (.bool b) => .ok b
  | _ => .error .invalid

/-- Deserializing one `ColumnConfigV2` record. -/
def deserializeV2 : Value → Except SchemaError ColumnConfigV2
  | .map fields =>
    match lookupField fields "key" with
    | some (.str k) =>
      (match deWidth (lookupField fields "width") with
       | .ok w =>
         (match deBool (lookupField fields "hidden") with
          | .ok h => .ok ⟨k, w, h⟩
          | .error e => .error e)
       | .error e => .error e)
    | _ => .error .invalid
  | _ => .error .invalid

/-- Deserializing a sequence of `ColumnConfigV2` records elementwise. -/
def deSeqV2List : List Value → Except SchemaError (List ColumnConfigV2)
  | [] => .ok []
  | v :: vs =>
    match deserializeV2 v with
    | .ok c =>
      (match deSeqV2List vs with
       | .ok cs => .ok (c :: cs)
       | .error e => .error e)
    | .error e => .error e

/-- Deserializing a `ColumnConfig`: an externally tagged enum is a
single-entry mapping whose key is the version tag; `V1` requires its three
`u16` widths, `V2` its `columns` list, `V3` requires `my_addons_columns`
and `catalog_columns` while a missing `aura_columns` defaults to `[]`
(`#[serde(default)]`); an unrecognized tag is an error. -/
def deserializeColumnConfig : Value → Except SchemaError ColumnConfig
  | .map [(tag, content)] =>
    match tag with
    | "V1" =>
      (match content with
       | .map fields =>
         (match deU16 (lookupField fields "local_version_width"),
                deU16 (lookupField fields "remote_version_width"),
                deU16 (lookupField fields "status_width") with
          | .ok a, .ok b, .ok s => .ok (.V1 a b s)
          | _, _, _ => .error .invalid)
       | _ => .error .invalid)
    | "V2" =>
      (match content with
       | .map fields =>
         (match lookupField fields "columns" with
          | some (.seq vs) =>
            (match deSeqV2List vs with
             | .ok cols => .ok (.V2 cols)
             | .error e => .error e)
          | _ => .error .invalid)
       | _ => .error .invalid)
    | "V3" =>
      (match content with
       | .map fields =>
         (match lookupField fields "my_addons_columns",
                lookupField fields "catalog_columns" with
          | some (.seq ms), some (.seq cs) =>
            (match deSeqV2List ms, deSeqV2List cs with
             | .ok m, .ok c =>
               (match lookupField fields "aura_columns" with
                | none => .ok (.V3 m c [])
                | some (.seq av) =>
                  (match deSeqV2List av with
                   | .ok a => .ok (.V3 m c a)
                   | .error e => .error e)
                | some _ => .error .invalid)
             | _, _ => .error .invalid)
          | _, _ => .error .invalid)
       | _ => .error .invalid)
    | _ => .error .invalid
  | _ => .error .invalid

/-- Serializing one `ColumnConfigV2` record. -/
def serializeV2 (c : ColumnConfigV2) : Value :=
  .map [("key", .str c.key),
        ("width", match c.width with | none => .null | some w => .nat w),
        ("hidden", .bool c.hidden)]

/-- Serializing a `ColumnConfig` as its externally tagged single-entry
mapping, all fields written out. -/
def serializeColumnConfig : ColumnConfig → Value
  | .V1 a b s =>
    .map [("V1", .map [("local_version_width", .nat a),
                       ("remote_version_width", .nat b),
                       ("status_width", .nat s)])]
  | .V2 cols =>
    .map [("V2", .map [("columns", .seq (cols.map serializeV2))])]
  | .V3 m c a =>
    .map [("V3", .map [("my_addons_columns", .seq (m.map serializeV2)),
                       ("catalog_columns", .seq (c.map serializeV2)),
                       ("aura_columns", .seq (a.map serializeV2))])]

/-- The `u16` bound on a record's optional width. -/
def ColumnConfigV2.wfb (c : ColumnConfigV2) : Bool :=
  match c.width with
  | none => true
  | some n => n < 65536

/-- The `u16` bounds over a whole `ColumnConfig` value. -/
def ColumnConfig.wfb : ColumnConfig → Bool
  | .V1 a b s => (a < 65536 : Bool) && (b < 65536 : Bool) && (s < 65536 : Bool)
  | .V2 cols => cols.all ColumnConfigV2.wfb
  | .V3 m c a => m.all ColumnConfigV2.wfb && c.all ColumnConfigV2.wfb && a.all ColumnConfigV2.wfb

/-- The configuration aggregate (the fields this core reasons about). -/
structure Config where
  wow : Wow
  column_config : ColumnConfig

/-- `path.join(flavor.folder_name())`. -/
def Config.get_flavor_directory_for_flavor (_c : Config) (flavor : Flavor) (path : FsPath) : FsPath :=
  path ++ [flavor.folderName]

/-- `Config::get_root_directory_for_flavor`: the parent of the recorded
root; the source unwraps `parent()`, so a recorded root with no parent
panics. -/
def Config.get_root_directory_for_flavor (c : Config) (flavor : Flavor) : Except ResolveError (Option FsPath) :=
  match c.wow.directories flavor with
  | some flavorDir =>
    (match flavorDir.parentDir with
     | some p => .ok (some p)
     | none => .error .panic)
  | none => .ok none

/-- `Config::get_download_directory_for_flavor`: the recorded root itself. -/
def Config.get_download_directory_for_flavor (c : Config) (flavor : Flavor) : Option FsPath :=
  c.wow.directories flavor

/-- The shared search of `get_addon_directory_for_flavor` and
`get_wtf_directory_for_flavor`: start from the exact-case expected path
`dir ++ expected`; if it does not exist, run the case-insensitive glob
search with pattern `format!("{}{}", dir.display(), patSuffix)` — panicking
(`.unwrap()`) when `glob_with`'s pattern compilation (`globAccepts`)
rejects it — and let the last match of the iteration overwrite the
expected path. -/
def resolveCaseInsensitive (fs : FileSystem) (dir : FsPath) (expected : List String)
    (patSuffix : String) (patComps : List String) : Except ResolveError FsPath :=
  let exact := dir ++ expected
  if pathExists fs exact then .ok exact
  else if globAccepts (pathDisplayChars dir ++ patSuffix.data) then
    .ok ((globMatches fs dir patComps).foldl (fun _ p => p) exact)
  else .error .panic

/-- `Config::get_addon_directory_for_flavor`: `None` for an unrecorded
flavor; otherwise the case-insensitive resolution of
`dir.join("Interface/AddOns")` with pattern `{dir}/?nterface/?ddons`,
followed by `create_dir_all` when the root exists but the resolved path
does not. -/
def Config.get_addon_directory_for_flavor (c : Config) (fs : FileSystem) (flavor : Flavor) :
    Except ResolveError ResolveOutcome :=
  match c.wow.directories flavor with
  | none => .ok ⟨none, fs, false⟩
  | some dir =>
    (match resolveCaseInsensitive fs dir ["Interface", "AddOns"] "/?nterface/?ddons"
        ["?nterface", "?ddons"] with
     | .error e => .error e
     | .ok addonDir =>
       if pathExists fs dir && !pathExists fs addonDir then
         .ok ⟨some addonDir, createDirAll fs addonDir, true⟩
       else
         .ok ⟨some addonDir, fs, false⟩)

/-- `Config::get_wtf_directory_for_flavor`: `None` for an unrecorded
flavor; otherwise the case-insensitive resolution of `dir.join("WTF")` with
pattern `{dir}/?tf`; no directory is ever created. -/
def Config.get_wtf_directory_for_flavor (c : Config) (fs : FileSystem) (flavor : Flavor) :
    Except ResolveError ResolveOutcome :=
  match c.wow.directories flavor with
  | none => .ok ⟨none, fs, false⟩
  | some dir =>
    (match resolveCaseInsensitive fs dir ["WTF"] "/?tf" ["?tf"] with
     | .error e => .error e
     | .ok wtfDir => .ok ⟨some wtfDir, fs, false⟩)

/-! Concrete examples used by witnesses and counterexamples. -/

/-- A configuration recording only the Retail root `/games/wow/_retail_`. -/
def cfgRetail : Config :=
  { wow := ⟨fun f => match f with
      | .retail => some ["games", "wow", "_retail_"]
      | _ => none⟩,
    column_config := ColumnConfig.default }

/-- A configuration with no recorded installation roots. -/
def cfgEmpty : Config :=
  { wow := ⟨fun _ => none⟩, column_config := ColumnConfig.default }

/-- A configuration whose Retail root is the single component `[`,
an invalid glob pattern fragment. -/
def cfgBracket : Config :=
  { wow := ⟨fun f => match f with
      | .retail => some ["["]
      | _ => none⟩,
    column_config := ColumnConfig.default }

/-- A configuration whose Retail root is `/a[/]b`: its display makes the
whole search pattern `/a[/]b/...` a valid glob pattern (the `[/]` class
spans the separator), yet the per-component compilation of `a[` fails, so
`glob_with` errors and the source's unwrap panics. -/
def cfgBracketClass : Config :=
  { wow := ⟨fun f => match f with
      | .retail => some ["a[", "]b"]
      | _ => none⟩,
    column_config := ColumnConfig.default }

/-- A filesystem where the root `/[` of `cfgBracket` exists and holds the
case-variant `interface/addons`, but not the exact-case
`Interface/AddOns`. -/
def fsBracketVariant : FileSystem :=
  ⟨[["["], ["[", "interface"], ["[", "interface", "addons"]]⟩

/-- A filesystem where the root `/[` of `cfgBracket` exists and is
empty. -/
def fsBracketBare : FileSystem :=
  ⟨[["["]]⟩

/-- A filesystem where the Retail root holds `interface/addons`
(lower-case variant) but not `Interface/AddOns`. -/
def fsCaseVariant : FileSystem :=
  ⟨[["games"], ["games", "wow"], ["games", "wow", "_retail_"],
    ["games", "wow", "_retail_", "interface"],
    ["games", "wow", "_retail_", "interface", "addons"]]⟩

/-- A filesystem where the Retail root exists but is empty. -/
def fsBareRoot : FileSystem :=
  ⟨[["games"], ["games", "wow"], ["games", "wow", "_retail_"]]⟩

/-- A filesystem where the Retail root holds the exact-case
`Interface/AddOns`. -/
def fsExact : FileSystem :=
  ⟨[["games"], ["games", "wow"], ["games", "wow", "_retail_"],
    ["games", "wow", "_retail_", "Interface"],
    ["games", "wow", "_retail_", "Interface", "AddOns"],
    ["games", "wow", "_retail_", "WTF"]]⟩

/-- A filesystem where the Retail root holds `xtf` and
`Xnterface/Yddons` — first-character variants that are not case variants
of `WTF` and `Interface/AddOns`. -/
def fsOddNames : FileSystem :=
  ⟨[["games"], ["games", "wow"], ["games", "wow", "_retail_"],
    ["games", "wow", "_retail_", "xtf"],
    ["games", "wow", "_retail_", "Xnterface"],
    ["games", "wow", "_retail_", "Xnterface", "Yddons"]]⟩

/-! Helper lemmas. -/

/-- Membership in the filesystem gives a positive existence check. -/
theorem pathExists_of_mem {fs : FileSystem} {p : FsPath} (h : p ∈ fs.dirs) :
    pathExists fs p = true := by
  simpa [pathExists] using h

/-- The validity scan accepts any pattern free of `*` and `[`. -/
theorem globPatternValidAux_no_meta :
    ∀ (fuel : Nat) (l : List Char) (prev : Option Char), l.length ≤ fuel →
      (∀ c ∈ l, c ≠ '*' ∧ c ≠ '[') → globPatternValidAux fuel prev l = true := by
  intro fuel
  induction fuel with
  | zero =>
    intro l prev hl _
    cases l with
    | nil => rfl
    | cons c r => simp at hl
  | succ n ih =>
    intro l prev hl hm
    cases l with
    | nil => rfl
    | cons c r =>
      have hc := hm c (by simp)
      have hr : ∀ d ∈ r, d ≠ '*' ∧ d ≠ '[' := fun d hd => hm d (by simp [hd])
      have hrl : r.length ≤ n := by simpa using hl
      by_cases hq : c = '?'
      · subst hq
        simp only [globPatternValidAux, if_pos]
        exact ih r (some '?') hrl hr
      · simp only [globPatternValidAux]
        rw [if_neg (by simp [hq]), if_neg (by simp [hc.1]), if_neg (by simp [hc.2])]
        exact ih r (some c) hrl hr

/-- Every character of the displayed path comes from a separator or a
component. -/
theorem pathDisplayChars_mem :
    ∀ (dir : FsPath) (c : Char), c ∈ pathDisplayChars dir →
      c = '/' ∨ ∃ s ∈ dir, c ∈ s.data := by
  intro dir
  induction dir with
  | nil => intro c hc; simp [pathDisplayChars] at hc
  | cons s rest ih =>
    intro c hc
    simp only [pathDisplayChars, List.mem_cons, List.mem_append] at hc
    rcases hc with hc | hc | hc
    · exact Or.inl hc
    · exact Or.inr ⟨s, by simp, hc⟩
    · rcases ih c hc with h | ⟨t, ht, hct⟩
      · exact Or.inl h
      · exact Or.inr ⟨t, by simp [ht], hct⟩

/-- A metacharacter-free root displays to a string without `*` or `[`. -/
theorem dirGlobLiteral_no_meta {dir : FsPath} (h : dirGlobLiteral dir = true) :
    ∀ c ∈ pathDisplayChars dir, c ≠ '*' ∧ c ≠ '[' := by
  intro c hc
  rcases pathDisplayChars_mem dir c hc with h1 | ⟨s, hs, hcs⟩
  · subst h1; exact ⟨by decide, by decide⟩
  · simp only [dirGlobLiteral, List.all_eq_true] at h
    have h2 := h s hs c hcs
    constructor <;> (intro hh; subst hh; simp at h2)

/-- Every character of a separator-split chunk comes from the split
list. -/
theorem mem_splitSep_subset :
    ∀ (l : List Char), ∀ c ∈ splitSep l, ∀ d ∈ c, d ∈ l := by
  intro l
  induction l with
  | nil =>
    intro c hc d hd
    simp only [splitSep, List.mem_singleton] at hc
    subst hc
    simp at hd
  | cons a r ih =>
    intro c hc d hd
    by_cases ha : a = '/'
    · subst ha
      have heq : splitSep ('/' :: r) = [] :: splitSep r := by simp [splitSep]
      rw [heq] at hc
      rcases List.mem_cons.mp hc with hc | hc
      · subst hc; simp at hd
      · exact List.mem_cons_of_mem _ (ih c hc d hd)
    · rcases hsplit : splitSep r with _ | ⟨chunk, rest⟩
      · have heq : splitSep (a :: r) = [[a]] := by simp [splitSep, ha, hsplit]
        rw [heq] at hc
        simp only [List.mem_singleton] at hc
        subst hc
        simp only [List.mem_singleton] at hd
        simp [hd]
      · have heq : splitSep (a :: r) = (a :: chunk) :: rest := by
          simp [splitSep, ha, hsplit]
        rw [heq] at hc
        rcases List.mem_cons.mp hc with hc | hc
        · subst hc
          rcases List.mem_cons.mp hd with h1 | h1
          · simp [h1]
          · exact List.mem_cons_of_mem _
              (ih chunk (by rw [hsplit]; exact List.mem_cons_self _ _) d h1)
        · exact List.mem_cons_of_mem _
            (ih c (by rw [hsplit]; exact List.mem_cons_of_mem _ hc) d hd)

/-- `glob_with` accepts any pattern free of `*` and `[`: the whole-pattern
scan and every per-component compilation succeed. -/
theorem globAccepts_no_meta {l : List Char}
    (h : ∀ c ∈ l, c ≠ '*' ∧ c ≠ '[') : globAccepts l = true := by
  have hwhole : globPatternValid l = true :=
    globPatternValidAux_no_meta l.length l none le_rfl h
  have hcomps : (patternComponents l).all (fun c => globPatternValid c) = true := by
    rw [List.all_eq_true]
    intro c hc
    have hc' : c ∈ splitSep l := (List.mem_filter.mp hc).1
    exact globPatternValidAux_no_meta c.length c none le_rfl
      (fun d hd => h d (mem_splitSep_subset l c hc' d hd))
  simp [globAccepts, hwhole, hcomps]

/-- `glob_with` accepts the pattern built from a metacharacter-free root
and a suffix free of `*` and `[`. -/
theorem globAccepts_append_no_meta {dir : FsPath} {suffix : List Char}
    (h : dirGlobLiteral dir = true) (hs : ∀ c ∈ suffix, c ≠ '*' ∧ c ≠ '[') :
    globAccepts (pathDisplayChars dir ++ suffix) = true := by
  apply globAccepts_no_meta
  intro c hc
  rcases List.mem_append.mp hc with h1 | h2
  · exact dirGlobLiteral_no_meta h c h1
  · exact hs c h2

/-- The shared search returns the exact-case path when it exists. -/
theorem resolveCaseInsensitive_exact (fs : FileSystem) (dir : FsPath)
    (expected : List String) (patSuffix : String) (patComps : List String)
    (h : pathExists fs (dir ++ expected) = true) :
    resolveCaseInsensitive fs dir expected patSuffix patComps = .ok (dir ++ expected) := by
  simp [resolveCaseInsensitive, h]

/-- When the exact-case path is missing and the pattern is accepted, the
shared search returns the last glob match (or the exact-case path if
none). -/
theorem resolveCaseInsensitive_search (fs : FileSystem) (dir : FsPath)
    (expected : List String) (patSuffix : String) (patComps : List String)
    (h : pathExists fs (dir ++ expected) = false)
    (hv : globAccepts (pathDisplayChars dir ++ patSuffix.data) = true) :
    resolveCaseInsensitive fs dir expected patSuffix patComps =
      .ok ((globMatches fs dir patComps).foldl (fun _ p => p) (dir ++ expected)) := by
  simp [resolveCaseInsensitive, h, hv]

/-- With an accepted pattern the shared search always succeeds. -/
theorem resolveCaseInsensitive_ok (fs : FileSystem) (dir : FsPath)
    (expected : List String) (patSuffix : String) (patComps : List String)
    (hv : globAccepts (pathDisplayChars dir ++ patSuffix.data) = true) :
    ∃ p, resolveCaseInsensitive fs dir expected patSuffix patComps = .ok p := by
  by_cases h : pathExists fs (dir ++ expected) = true
  · exact ⟨_, resolveCaseInsensitive_exact fs dir expected patSuffix patComps h⟩
  · have h' : pathExists fs (dir ++ expected) = false := by simpa using h
    exact ⟨_, resolveCaseInsensitive_search fs dir expected patSuffix patComps h' hv⟩

/-! Claim theorems. -/

/-- C1 counterexample: with the root recorded as `/[` and the case-variant
`/[/interface/addons` on disk (exact-case path absent), the claim's
premises hold, yet `get_addon_directory_for_flavor` panics on
`glob_with(...).unwrap()` — the built pattern `/[/?nterface/?ddons` is an
invalid glob pattern — instead of returning the case-insensitive match. -/
theorem addon_directory_bracket_root_variant_panics :
    Config.get_addon_directory_for_flavor cfgBracket fsBracketVariant .retail =
      .error .panic := by
  rfl

/-- C1 (amended): for a flavor with a recorded root none of whose
components contains a glob metacharacter (`?`, `*`, `[`), when the
exact-case `root/Interface/AddOns` does not exist but a unique
case-insensitive variant `root/x/y` does, `get_addon_directory_for_flavor`
returns that match and does not create any directory (the filesystem is
unchanged). -/
theorem addon_directory_case_insensitive_fallback
    (c : Config) (fs : FileSystem) (flavor : Flavor) (dir : FsPath) (x y : String)
    (hrec : c.wow.directories flavor = some dir)
    (hlit : dirGlobLiteral dir = true)
    (hmiss : pathExists fs (dir ++ ["Interface", "AddOns"]) = false)
    (hx : listEqCI x.data "Interface".data = true)
    (hy : listEqCI y.data "AddOns".data = true)
    (hmem : (dir ++ [x, y]) ∈ fs.dirs)
    (hglob : globMatches fs dir ["?nterface", "?ddons"] = [dir ++ [x, y]]) :
    Config.get_addon_directory_for_flavor c fs flavor =
      .ok ⟨some (dir ++ [x, y]), fs, false⟩ := by
  have hv := @globAccepts_append_no_meta dir "/?nterface/?ddons".data hlit (by decide)
  have hex := pathExists_of_mem hmem
  simp only [Config.get_addon_directory_for_flavor, hrec,
    resolveCaseInsensitive_search fs dir ["Interface", "AddOns"] "/?nterface/?ddons"
      ["?nterface", "?ddons"] hmiss hv, hglob, List.foldl_cons, List.foldl_nil]
  simp [hex]

/-- Witness for C1: the spec's scenario, Retail root `/games/wow/_retail_`
with `interface/addons` on disk. -/
theorem addon_directory_case_insensitive_fallback_witness :
    Config.get_addon_directory_for_flavor cfgRetail fsCaseVariant .retail =
      .ok ⟨some ["games", "wow", "_retail_", "interface", "addons"], fsCaseVariant, false⟩ :=
  addon_directory_case_insensitive_fallback cfgRetail fsCaseVariant .retail
    ["games", "wow", "_retail_"] "interface" "addons"
    rfl (by decide) (by rfl) (by decide) (by decide) (by decide) (by rfl)

/-- C2 counterexample: with the root recorded as `/[`, existing on disk
and containing no subdirectory at all, the claim's premises hold, yet
`get_addon_directory_for_flavor` panics on `glob_with(...).unwrap()`
(invalid pattern `/[/?nterface/?ddons`) instead of creating and returning
the exact-case expected path. -/
theorem addon_directory_bracket_root_bare_panics :
    Config.get_addon_directory_for_flavor cfgBracket fsBracketBare .retail =
      .error .panic := by
  rfl

/-- C2 (amended): for a flavor with a recorded root none of whose
components contains a glob metacharacter (`?`, `*`, `[`), when the root
exists on disk but has no exact-case and no case-variant match,
`get_addon_directory_for_flavor` invokes `create_dir_all` and returns the
exact-case expected path `root/Interface/AddOns`, never `None` (the
returned path is computed before creation, so it does not depend on
creation succeeding). -/
theorem addon_directory_creates_when_no_match
    (c : Config) (fs : FileSystem) (flavor : Flavor) (dir : FsPath)
    (hrec : c.wow.directories flavor = some dir)
    (hlit : dirGlobLiteral dir = true)
    (hroot : pathExists fs dir = true)
    (hmiss : pathExists fs (dir ++ ["Interface", "AddOns"]) = false)
    (hnone : globMatches fs dir ["?nterface", "?ddons"] = []) :
    Config.get_addon_directory_for_flavor c fs flavor =
      .ok ⟨some (dir ++ ["Interface", "AddOns"]),
           createDirAll fs (dir ++ ["Interface", "AddOns"]), true⟩ := by
  have hv := @globAccepts_append_no_meta dir "/?nterface/?ddons".data hlit (by decide)
  simp only [Config.get_addon_directory_for_flavor, hrec,
    resolveCaseInsensitive_search fs dir ["Interface", "AddOns"] "/?nterface/?ddons"
      ["?nterface", "?ddons"] hmiss hv, hnone, List.foldl_nil]
  simp [hroot, hmiss]

/-- Witness for C2: the Retail root exists and is empty. -/
theorem addon_directory_creates_when_no_match_witness :
    Config.get_addon_directory_for_flavor cfgRetail fsBareRoot .retail =
      .ok ⟨some ["games", "wow", "_retail_", "Interface", "AddOns"],
           createDirAll fsBareRoot ["games", "wow", "_retail_", "Interface", "AddOns"], true⟩ :=
  addon_directory_creates_when_no_match cfgRetail fsBareRoot .retail
    ["games", "wow", "_retail_"] rfl (by decide) (by rfl) (by rfl) (by rfl)

/-- C3: a flavor with no entry in the directories mapping makes every
resolver return `None`. -/
theorem resolvers_none_for_unrecorded_flavor
    (c : Config) (fs : FileSystem) (flavor : Flavor)
    (h : c.wow.directories flavor = none) :
    Config.get_root_directory_for_flavor c flavor = .ok none ∧
    Config.get_addon_directory_for_flavor c fs flavor = .ok ⟨none, fs, false⟩ ∧
    Config.get_download_directory_for_flavor c flavor = none ∧
    Config.get_wtf_directory_for_flavor c fs flavor = .ok ⟨none, fs, false⟩ := by
  refine ⟨?_, ?_, ?_, ?_⟩ <;>
    simp [Config.get_root_directory_for_flavor, Config.get_addon_directory_for_flavor,
      Config.get_download_directory_for_flavor, Config.get_wtf_directory_for_flavor, h]

/-- Witness for C3: a configuration with no recorded roots. -/
theorem resolvers_none_for_unrecorded_flavor_witness :
    Config.get_root_directory_for_flavor cfgEmpty .classic = .ok none ∧
    Config.get_addon_directory_for_flavor cfgEmpty ⟨[]⟩ .classic = .ok ⟨none, ⟨[]⟩, false⟩ ∧
    Config.get_download_directory_for_flavor cfgEmpty .classic = none ∧
    Config.get_wtf_directory_for_flavor cfgEmpty ⟨[]⟩ .classic = .ok ⟨none, ⟨[]⟩, false⟩ :=
  resolvers_none_for_unrecorded_flavor cfgEmpty ⟨[]⟩ .classic rfl

/-- C4 counterexample: with the Retail root recorded as `/[` — an invalid
glob pattern fragment — and `Interface/AddOns` absent,
`glob::glob_with(...).unwrap()` in `get_addon_directory_for_flavor` panics
instead of returning a best-guess path, refuting the claim that the
resolvers never panic for every recorded root and filesystem state. -/
theorem addon_directory_panics_on_bracket_root :
    Config.get_addon_directory_for_flavor cfgBracket ⟨[]⟩ .retail = .error .panic := by
  rfl

/-- For the root `/a[/]b` the whole search pattern is a valid glob
pattern (`[/]` is a character class spanning the separator), yet its path
component `a[` fails to compile, so `glob_with` returns an error and the
source's `.unwrap()` panics whenever the exact-case path is absent — the
per-component compilation in `globAccepts` is what captures this. -/
theorem bracket_class_spanning_separator_panics :
    globPatternValid (pathDisplayChars ["a[", "]b"] ++ "/?nterface/?ddons".data) = true ∧
    Config.get_addon_directory_for_flavor cfgBracketClass ⟨[]⟩ .retail = .error .panic :=
  ⟨rfl, rfl⟩

/-- C4 (amended): for every flavor with a recorded root whose display
string extended by the search suffix is accepted by `glob_with`'s pattern
compilation — `Pattern::new` succeeds on the whole pattern and on every
path component of it (in particular for any root free of `*` and `[`) —
`get_addon_directory_for_flavor` and `get_wtf_directory_for_flavor` never
fail: for every filesystem state they return `Some` of a best-guess path. -/
theorem resolvers_total_for_valid_patterns
    (c : Config) (fs : FileSystem) (flavor : Flavor) (dir : FsPath)
    (hrec : c.wow.directories flavor = some dir)
    (hv1 : globAccepts (pathDisplayChars dir ++ "/?nterface/?ddons".data) = true)
    (hv2 : globAccepts (pathDisplayChars dir ++ "/?tf".data) = true) :
    (∃ r, Config.get_addon_directory_for_flavor c fs flavor = .ok r ∧
      r.result.isSome = true) ∧
    (∃ r, Config.get_wtf_directory_for_flavor c fs flavor = .ok r ∧
      r.result.isSome = true) := by
  obtain ⟨p1, hp1⟩ := resolveCaseInsensitive_ok fs dir ["Interface", "AddOns"]
    "/?nterface/?ddons" ["?nterface", "?ddons"] hv1
  obtain ⟨p2, hp2⟩ := resolveCaseInsensitive_ok fs dir ["WTF"] "/?tf" ["?tf"] hv2
  constructor
  · simp only [Config.get_addon_directory_for_flavor, hrec, hp1]
    split
    · exact ⟨_, rfl, rfl⟩
    · exact ⟨_, rfl, rfl⟩
  · simp only [Config.get_wtf_directory_for_flavor, hrec, hp2]
    exact ⟨_, rfl, rfl⟩

/-- Witness for the amended C4: the Retail root on an empty filesystem. -/
theorem resolvers_total_for_valid_patterns_witness :
    (∃ r, Config.get_addon_directory_for_flavor cfgRetail ⟨[]⟩ .retail = .ok r ∧
      r.result.isSome = true) ∧
    (∃ r, Config.get_wtf_directory_for_flavor cfgRetail ⟨[]⟩ .retail = .ok r ∧
      r.result.isSome = true) :=
  resolvers_total_for_valid_patterns cfgRetail ⟨[]⟩ .retail
    ["games", "wow", "_retail_"] rfl (by rfl) (by rfl)

/-- C5: for a flavor whose recorded root has a parent component,
`get_root_directory_for_flavor` returns `Some` of that parent; it panics
(on the `parent().unwrap()`) exactly when the recorded root has no parent
component, i.e. is a filesystem root. -/
theorem root_directory_parent_spec (c : Config) (flavor : Flavor) :
    (∀ dir, c.wow.directories flavor = some dir → dir ≠ [] →
      Config.get_root_directory_for_flavor c flavor = .ok (some dir.dropLast)) ∧
    (Config.get_root_directory_for_flavor c flavor = .error .panic ↔
      c.wow.directories flavor = some ([] : FsPath)) := by
  constructor
  · intro dir h hne
    cases dir with
    | nil => exact absurd rfl hne
    | cons a l =>
      simp [Config.get_root_directory_for_flavor, h, FsPath.parentDir]
  · rcases hd : c.wow.directories flavor with _ | dir
    · simp [Config.get_root_directory_for_flavor, hd]
    · cases dir with
      | nil => simp [Config.get_root_directory_for_flavor, hd, FsPath.parentDir]
      | cons a l => simp [Config.get_root_directory_for_flavor, hd, FsPath.parentDir]

/-- Witness for C5: the parent of `/games/wow/_retail_` is `/games/wow`. -/
theorem root_directory_parent_spec_witness :
    Config.get_root_directory_for_flavor cfgRetail .retail = .ok (some ["games", "wow"]) :=
  (root_directory_parent_spec cfgRetail .retail).1 ["games", "wow", "_retail_"] rfl (by decide)

/-- C8: when the exact-case `root/Interface/AddOns` exists,
`get_addon_directory_for_flavor` returns exactly that path, performs no
case-insensitive search and no creation, and leaves the filesystem
unchanged. -/
theorem addon_directory_exact_case
    (c : Config) (fs : FileSystem) (flavor : Flavor) (dir : FsPath)
    (hrec : c.wow.directories flavor = some dir)
    (hex : pathExists fs (dir ++ ["Interface", "AddOns"]) = true) :
    Config.get_addon_directory_for_flavor c fs flavor =
      .ok ⟨some (dir ++ ["Interface", "AddOns"]), fs, false⟩ := by
  simp only [Config.get_addon_directory_for_flavor, hrec,
    resolveCaseInsensitive_exact fs dir ["Interface", "AddOns"] "/?nterface/?ddons"
      ["?nterface", "?ddons"] hex]
  simp [hex]

/-- Witness for C8: the Retail root with the exact-case directories. -/
theorem addon_directory_exact_case_witness :
    Config.get_addon_directory_for_flavor cfgRetail fsExact .retail =
      .ok ⟨some ["games", "wow", "_retail_", "Interface", "AddOns"], fsExact, false⟩ :=
  addon_directory_exact_case cfgRetail fsExact .retail
    ["games", "wow", "_retail_"] rfl (by rfl)

/-- C9: `get_wtf_directory_for_flavor` is exactly the shared case-
insensitive resolution algorithm (the same `resolveCaseInsensitive` used by
`get_addon_directory_for_flavor`) instantiated with `WTF` and pattern
`?tf`, and for every input and filesystem state it performs no creation and
no filesystem mutation. -/
theorem wtf_directory_same_algorithm_no_creation
    (c : Config) (fs : FileSystem) (flavor : Flavor) :
    Config.get_wtf_directory_for_flavor c fs flavor =
      (match c.wow.directories flavor with
       | none => .ok ⟨none, fs, false⟩
       | some dir => (resolveCaseInsensitive fs dir ["WTF"] "/?tf" ["?tf"]).map
           (fun p => ⟨some p, fs, false⟩)) := by
  rcases hd : c.wow.directories flavor with _ | dir
  · simp [Config.get_wtf_directory_for_flavor, hd]
  · simp only [Config.get_wtf_directory_for_flavor, hd]
    rcases hr : resolveCaseInsensitive fs dir ["WTF"] "/?tf" ["?tf"] with e | p
    · rfl
    · rfl

/-- A successfully deserialized `u16` is in range. -/
theorem deU16_lt {o : Option Value} {n : Nat} (h : deU16 o = .ok n) : n < 65536 := by
  unfold deU16 at h
  split at h
  · split at h
    · injection h with h'; subst h'; assumption
    · exact Except.noConfusion h
  · exact Except.noConfusion h

/-- A successfully deserialized optional width satisfies the record
bound. -/
theorem deWidth_wfb {o : Option Value} {w : Option Nat} (k : String) (hid : Bool)
    (h : deWidth o = .ok w) : ColumnConfigV2.wfb ⟨k, w, hid⟩ = true := by
  unfold deWidth at h
  split at h
  · injection h with h'; subst h'; rfl
  · injection h with h'; subst h'; rfl
  · split at h
    · injection h with h'; subst h'; simp_all [ColumnConfigV2.wfb]
    · exact Except.noConfusion h
  · exact Except.noConfusion h

/-- A successfully deserialized record satisfies the `u16` bound. -/
theorem deserializeV2_wfb {v : Value} {c : ColumnConfigV2}
    (h : deserializeV2 v = .ok c) : c.wfb = true := by
  unfold deserializeV2 at h
  split at h
  · split at h
    · split at h
      · rename_i w hw
        split at h
        · injection h with h'
          subst h'
          exact deWidth_wfb _ _ hw
        · exact Except.noConfusion h
      · exact Except.noConfusion h
    · exact Except.noConfusion h
  · exact Except.noConfusion h

/-- Every record of a successfully deserialized sequence satisfies the
bound. -/
theorem deSeqV2List_wfb : ∀ (vs : List Value) (l : List ColumnConfigV2),
    deSeqV2List vs = .ok l → l.all ColumnConfigV2.wfb = true := by
  intro vs
  induction vs with
  | nil =>
    intro l h
    injection h with h'
    subst h'
    rfl
  | cons v rest ih =>
    intro l h
    unfold deSeqV2List at h
    split at h
    · rename_i c hc
      split at h
      · rename_i cs hcs
        injection h with h'
        subst h'
        simp [List.all_cons, deserializeV2_wfb hc, ih cs hcs]
      · exact Except.noConfusion h
    · exact Except.noConfusion h

/-- Every successfully deserialized `ColumnConfig` satisfies the `u16`
bounds. -/
theorem deserializeColumnConfig_wfb {v : Value} {c : ColumnConfig}
    (h : deserializeColumnConfig v = .ok c) : c.wfb = true := by
  unfold deserializeColumnConfig at h
  split at h
  · split at h
    · split at h
      · split at h
        · rename_i a b s ha hb hs
          injection h with h'
          subst h'
          simp [ColumnConfig.wfb, deU16_lt ha, deU16_lt hb, deU16_lt hs]
        · exact Except.noConfusion h
      · exact Except.noConfusion h
    · split at h
      · split at h
        · split at h
          · rename_i cols hcols
            injection h with h'
            subst h'
            simpa [ColumnConfig.wfb] using deSeqV2List_wfb _ _ hcols
          · exact Except.noConfusion h
        · exact Except.noConfusion h
      · exact Except.noConfusion h
    · split at h
      · split at h
        · split at h
          · rename_i m cm hm hcm
            split at h
            · injection h with h'
              subst h'
              simp [ColumnConfig.wfb, deSeqV2List_wfb _ _ hm, deSeqV2List_wfb _ _ hcm]
            · split at h
              · rename_i av ha
                injection h with h'
                subst h'
                simp [ColumnConfig.wfb, deSeqV2List_wfb _ _ hm, deSeqV2List_wfb _ _ hcm,
                  deSeqV2List_wfb _ _ ha]
              · exact Except.noConfusion h
            · exact Except.noConfusion h
          · exact Except.noConfusion h
        · exact Except.noConfusion h
      · exact Except.noConfusion h
    · exact Except.noConfusion h
  · exact Except.noConfusion h

/-- Serialize-then-deserialize of one in-range record is the identity. -/
theorem deserializeV2_serializeV2 {c : ColumnConfigV2} (h : c.wfb = true) :
    deserializeV2 (serializeV2 c) = .ok c := by
  obtain ⟨k, w, hid⟩ := c
  cases w with
  | none => rfl
  | some n =>
    have hn : n < 65536 := by simpa [ColumnConfigV2.wfb] using h
    simp [serializeV2, deserializeV2, lookupField, deWidth, deBool, hn]

/-- Serialize-then-deserialize of an in-range record list is the
identity. -/
theorem deSeqV2List_map_serializeV2 : ∀ (l : List ColumnConfigV2),
    l.all ColumnConfigV2.wfb = true → deSeqV2List (l.map serializeV2) = .ok l := by
  intro l
  induction l with
  | nil => intro _; rfl
  | cons c cs ih =>
    intro h
    simp only [List.all_cons, Bool.and_eq_true] at h
    simp [deSeqV2List, deserializeV2_serializeV2 h.1, ih h.2]

/-- Serialize-then-deserialize of an in-range `ColumnConfig` is the
identity, version tag included. -/
theorem deserialize_serialize_of_wfb {c : ColumnConfig} (h : c.wfb = true) :
    deserializeColumnConfig (serializeColumnConfig c) = .ok c := by
  cases c with
  | V1 a b s =>
    simp only [ColumnConfig.wfb, Bool.and_eq_true, decide_eq_true_eq] at h
    obtain ⟨⟨ha, hb⟩, hs⟩ := h
    simp [serializeColumnConfig, deserializeColumnConfig, lookupField, deU16, ha, hb, hs]
  | V2 cols =>
    simp only [ColumnConfig.wfb] at h
    simp [serializeColumnConfig, deserializeColumnConfig, lookupField,
      deSeqV2List_map_serializeV2 cols h]
  | V3 m cm av =>
    simp only [ColumnConfig.wfb, Bool.and_eq_true] at h
    obtain ⟨⟨hm, hcm⟩, ha⟩ := h
    simp [serializeColumnConfig, deserializeColumnConfig, lookupField,
      deSeqV2List_map_serializeV2 m hm, deSeqV2List_map_serializeV2 cm hcm,
      deSeqV2List_map_serializeV2 av ha]

/-- C6: any valid persisted `ColumnConfig` document (V1, V2 or V3), once
deserialized, re-serializes and re-deserializes to a structurally equal
value, version tag included — no silent up-conversion. -/
theorem columnConfig_roundtrip (raw : Value) (c : ColumnConfig)
    (h : deserializeColumnConfig raw = .ok c) :
    deserializeColumnConfig (serializeColumnConfig c) = .ok c :=
  deserialize_serialize_of_wfb (deserializeColumnConfig_wfb h)

/-- Witness for C6: a V1 document carrying an extra unknown field
round-trips to itself. -/
theorem columnConfig_roundtrip_witness :
    deserializeColumnConfig (serializeColumnConfig (ColumnConfig.V1 150 150 85)) =
      .ok (ColumnConfig.V1 150 150 85) :=
  columnConfig_roundtrip
    (Value.map [("V1", Value.map
      [("local_version_width", Value.nat 150),
       ("remote_version_width", Value.nat 150),
       ("status_width", Value.nat 85),
       ("junk", Value.null)])])
    (ColumnConfig.V1 150 150 85) (by rfl)

/-- C7: a V3-tagged document with no `aura_columns` field deserializes
successfully and `aura_columns` is the empty sequence. -/
theorem v3_missing_aura_defaults_empty (ms cs : List Value)
    (m cl : List ColumnConfigV2)
    (hm : deSeqV2List ms = .ok m) (hc : deSeqV2List cs = .ok cl) :
    deserializeColumnConfig (.map [("V3", .map
      [("my_addons_columns", .seq ms), ("catalog_columns", .seq cs)])]) =
      .ok (.V3 m cl []) := by
  simp [deserializeColumnConfig, lookupField, hm, hc]

/-- Witness for C7: a V3 document with two empty lists and no
`aura_columns`. -/
theorem v3_missing_aura_defaults_empty_witness :
    deserializeColumnConfig (.map [("V3", .map
      [("my_addons_columns", Value.seq []), ("catalog_columns", Value.seq [])])]) =
      .ok (.V3 [] [] []) :=
  v3_missing_aura_defaults_empty [] [] [] [] rfl rfl

/-- C10: the fallback patterns `?nterface/?ddons` and `?tf` match any
directory agreeing with the expected name except in its first character —
not only case variants: `xtf` is returned as the settings directory and
`Xnterface/Yddons` as the addon directory, without creation. -/
theorem first_character_wildcard_not_case_only :
    Config.get_wtf_directory_for_flavor cfgRetail fsOddNames .retail =
      .ok ⟨some ["games", "wow", "_retail_", "xtf"], fsOddNames, false⟩ ∧
    Config.get_addon_directory_for_flavor cfgRetail fsOddNames .retail =
      .ok ⟨some ["games", "wow", "_retail_", "Xnterface", "Yddons"], fsOddNames, false⟩ :=
  ⟨rfl, rfl⟩

end Ajour
